import Mathlib

/-!
# CSV storage backend: shallow embedding and verification

Embedding of `src/jobspy_v2/storage/csv_backend.py`, a CSV-file storage
backend with three files (sent emails, scraped jobs, run stats).

Modelling choices:
* A file on disk is `FileState := Option (List (List String))`: `none` is a
  nonexistent file, `some ls` is the list of its lines, each line already
  split into its comma-separated fields (one `List String` per line; the
  header, when present, is the first line).  Counting lines of the file
  (`sum(1 for _ in f)` in the source) is `ls.length`.
* A Python `dict[str, str]` supplied by a caller is an association list
  `List (String × String)`; `d[k] = v` is `rset` (update in place the first
  binding of `k`, else append), matching dict insertion-order semantics.
* A row produced by `csv.DictReader` is a `ReadRow`: for each header column
  a binding to `some value`, or to `none` when the raw row is short (the
  reader's `restval`, Python `None`); fields beyond the header go to `rest`
  (the reader's `restkey` entry).  `d[k] = v` on such a dict is `dsets`.
* `csv.DictWriter(fieldnames := cols, extrasaction := ignore)` writing a
  reader row is `writeRow`: one field per column, missing keys and `None`
  values serialize as `""`, extra keys (and the `restkey`) are dropped.
* The column tuples (`SCRAPED_JOB_COLUMNS`, ...) live in
  `jobspy_v2/storage/base.py`, outside the given sources; every operation is
  therefore parameterized by `cols : List String`.
* `logger.warning` / `logger.debug` calls that the claims mention are
  modelled by returning a `LogLevel` alongside the new file state.
* `date.today().isoformat()` is modelled as an explicit `today : String`
  parameter.
-/

/-- A file on disk: `none` = file does not exist, `some ls` = its lines. -/
abbrev FileState := Option (List (List String))

/-- Log levels of the `logging` calls the operations make. -/
inductive LogLevel where
  | debug
  | warning
deriving DecidableEq, Repr

/-- A row as produced by `csv.DictReader`: one binding per header column
(`none` = the Python `None` restval for a short row), plus the `restkey`
list of excess fields. -/
structure ReadRow where
  fields : List (String × Option String)
  rest : List String
deriving DecidableEq, Repr

/-- Python `s.startswith(p)` on the character lists: `p` a prefix of `s`. -/
def charsStartWith : List Char → List Char → Bool
  | [], _ => true
  | _ :: _, [] => false
  | p :: ps, c :: cs => p == c && charsStartWith ps cs

/-- Python `s.startswith(t)`. -/
def startswith (s t : String) : Bool :=
  charsStartWith t.data s.data

/-- Python dict assignment `d[k] = v` on a caller record (string values):
replace the first binding of `k` in place, else append at the end. -/
def rset : List (String × String) → String → String → List (String × String)
  | [], k, v => [(k, v)]
  | (k0, v0) :: rest, k, v =>
    if k0 = k then (k0, v) :: rest else (k0, v0) :: rset rest k v

/-- Python dict assignment `d[k] = v` on a `DictReader` row's fields. -/
def dsets : List (String × Option String) → String → String →
    List (String × Option String)
  | [], k, v => [(k, some v)]
  | (k0, v0) :: rest, k, v =>
    if k0 = k then (k0, some v) :: rest else (k0, v0) :: dsets rest k v

/-- Zip header columns with a raw row's fields; short rows pad with `none`
(the `DictReader` restval). -/
def readFields : List String → List String → List (String × Option String)
  | [], _ => []
  | c :: cs, [] => (c, none) :: readFields cs []
  | c :: cs, v :: vs => (c, some v) :: readFields cs vs

/-- Model of `csv.DictReader` turning one raw line into a row dict, given the header. -/
def dictReadRow (header raw : List String) : ReadRow :=
  ⟨readFields header raw, raw.drop header.length⟩

/-- Model of `list(csv.DictReader(f))`: first line is the header, every later line
becomes a dict keyed by it; an empty file yields no rows. -/
def readCsvRows : List (List String) → List ReadRow
  | [] => []
  | header :: data => data.map (dictReadRow header)

/-- The value `csv.DictWriter` emits for one column of a dict: the stored
string, or `""` for a missing key or a `None` value. -/
def valD : Option (Option String) → String
  | some (some s) => s
  | _ => ""

/-- Model of `csv.DictWriter(fieldnames := cols, extrasaction := ignore).writerow`
on a reader row's fields: exactly one field per column. -/
def writeRow (cols : List String) (d : List (String × Option String)) :
    List String :=
  cols.map (fun c => valD (d.lookup c))

/-- Model of `DictWriter.writerow` on a caller record (`extrasaction := ignore`,
missing keys serialize as empty string). -/
def serializeRecord (cols : List String) (r : List (String × String)) :
    List String :=
  cols.map (fun c => ((r.lookup c).getD ""))

/-- Model of `_ensure_csv`: create the file with a header line if it does not exist;
returns the resulting lines of the file. -/
def ensure_csv (cols : List String) : FileState → List (List String)
  | none => [cols]
  | some ls => ls

/-- Model of `_read_csv`: ensure the file exists, then read all rows as dicts. -/
def read_csv (cols : List String) (fs : FileState) : List ReadRow :=
  readCsvRows (ensure_csv cols fs)

/-- Model of `_append_rows`: ensure the file exists, count its lines, append the
serialized rows, and return the 1-indexed starting line of the batch. -/
def append_rows (cols : List String) (rows : List (List (String × String)))
    (fs : FileState) : FileState × Nat :=
  let ls := ensure_csv cols fs
  let start := ls.length + 1
  (some (ls ++ rows.map (serializeRecord cols)), start)

/-- Model of `get_sent_emails` / `get_run_stats`: `_read_csv` over the file. -/
def get_sent_emails (cols : List String) (fs : FileState) : List ReadRow :=
  read_csv cols fs

/-- Model of `add_sent_email` / `add_run_stats`: append exactly one record. -/
def add_sent_email (cols : List String) (record : List (String × String))
    (fs : FileState) : FileState :=
  (append_rows cols [record] fs).1

/-- Model of `_get_next_row_number`: header-inclusive line count plus one. -/
def get_next_row_number (cols : List String) (fs : FileState) : Nat :=
  (ensure_csv cols fs).length + 1

/-- The `for i, record in enumerate(records): record["row_number"] =
str(start_row + i)` loop of `add_scraped_jobs`. -/
def assignRowNumbers (start : Nat) : Nat → List (List (String × String)) →
    List (List (String × String))
  | _, [] => []
  | i, r :: rest =>
    rset r "row_number" (toString (start + i)) :: assignRowNumbers start (i + 1) rest

/-- Model of `add_scraped_jobs`: on an empty batch just report the next free line;
otherwise stamp each record's `row_number` and append.  Returns the file
state, the mutated records (the source mutates its argument in place), and
the returned starting row number. -/
def add_scraped_jobs (cols : List String)
    (records : List (List (String × String))) (fs : FileState) :
    FileState × List (List (String × String)) × Nat :=
  if records = [] then
    let ls := ensure_csv cols fs
    (some ls, records, ls.length + 1)
  else
    let ls := ensure_csv cols fs
    let start := ls.length + 1
    let records2 := assignRowNumbers start 0 records
    let out := append_rows cols records2 (some ls)
    (out.1, records2, out.2)

/-- Model of `rows[data_index][...] = ...` for the three status fields. -/
def updateStatus (r : ReadRow) (email_sent skip_reason email_recipient : String) :
    ReadRow :=
  { fields := dsets (dsets (dsets r.fields "email_sent" email_sent)
      "skip_reason" skip_reason) "email_recipient" email_recipient,
    rest := r.rest }

/-- Model of `update_scraped_job_status`: read all rows, compute `data_index =
row_number - 2`; in range, update the three status fields of that row and
rewrite the whole file (header plus every row re-serialized over `cols`),
logging at debug level; out of range, log a warning and leave the file as
ensured. -/
def update_scraped_job_status (cols : List String) (row_number : Int)
    (email_sent skip_reason email_recipient : String) (fs : FileState) :
    FileState × LogLevel :=
  let ls := ensure_csv cols fs
  let rows := readCsvRows ls
  let dataIndex := row_number - 2
  if 0 ≤ dataIndex ∧ dataIndex < (rows.length : Int) then
    let i := dataIndex.toNat
    let rows2 := rows.set i
      (updateStatus (rows.getD i ⟨[], []⟩) email_sent skip_reason email_recipient)
    (some (cols :: rows2.map (fun q => writeRow cols q.fields)), LogLevel.debug)
  else
    (some ls, LogLevel.warning)

/-- The `for i, job in enumerate(all_jobs)` loop of `get_pending_jobs`:
keep the rows whose `email_sent` equals `"Pending"`, overwriting their
`row_number` with `str(i + 2)`. -/
def pendingLoop (header : List String) : Nat → List (List String) → List ReadRow
  | _, [] => []
  | i, raw :: rest =>
    let job := dictReadRow header raw
    if job.fields.lookup "email_sent" = some (some "Pending") then
      { job with fields := dsets job.fields "row_number" (toString (i + 2)) } ::
        pendingLoop header (i + 1) rest
    else
      pendingLoop header (i + 1) rest

/-- Model of `get_pending_jobs`: filter the job file for `email_sent == "Pending"`,
recomputing each returned row's `row_number` from its position. -/
def get_pending_jobs (cols : List String) (fs : FileState) : List ReadRow :=
  match ensure_csv cols fs with
  | [] => []
  | header :: data => pendingLoop header 0 data

/-- The body of the counting loop of `get_today_sent_emails_count`:
`date_sent = record.get("date_sent", "")`, then
`if date_sent and date_sent.startswith(today_str)`. -/
def countStep (today : String) (count : Nat) (r : ReadRow) : Nat :=
  match (r.fields.lookup "date_sent").getD (some "") with
  | none => count
  | some s => if s ≠ "" ∧ startswith s today then count + 1 else count

/-- Model of `get_today_sent_emails_count`, with `date.today().isoformat()` passed
in as `today`. -/
def get_today_sent_emails_count (cols : List String) (today : String)
    (fs : FileState) : Nat :=
  (read_csv cols fs).foldl (countStep today) 0

/-- The rows `get_today_sent_emails_count` counts: `date_sent` present,
non-empty, and starting with today's date string. -/
def isTodaySent (today : String) (r : ReadRow) : Bool :=
  match r.fields.lookup "date_sent" with
  | some (some s) => !(s == "") && startswith s today
  | _ => false

/-! ## Association-list and row lemmas -/

theorem lookup_cons_self {β : Type} (k : String) (v : β) (l : List (String × β)) :
    List.lookup k ((k, v) :: l) = some v := by
  simp [List.lookup]

theorem lookup_cons_ne {β : Type} (k k0 : String) (v : β) (l : List (String × β))
    (h : k ≠ k0) : List.lookup k ((k0, v) :: l) = List.lookup k l := by
  rw [List.lookup]
  rw [show (k == k0) = false from beq_eq_false_iff_ne.mpr h]

theorem lookup_rset_self (r : List (String × String)) (k v : String) :
    (rset r k v).lookup k = some v := by
  induction r with
  | nil => simp [rset, lookup_cons_self]
  | cons p rest ih =>
    obtain ⟨k0, v0⟩ := p
    by_cases h : k0 = k
    · subst h
      simp [rset, lookup_cons_self]
    · simp only [rset, if_neg h]
      rw [lookup_cons_ne _ _ _ _ (Ne.symm h)]
      exact ih

theorem lookup_dsets_self (d : List (String × Option String)) (k v : String) :
    (dsets d k v).lookup k = some (some v) := by
  induction d with
  | nil => simp [dsets, lookup_cons_self]
  | cons p rest ih =>
    obtain ⟨k0, v0⟩ := p
    by_cases h : k0 = k
    · subst h
      simp [dsets, lookup_cons_self]
    · simp only [dsets, if_neg h]
      rw [lookup_cons_ne _ _ _ _ (Ne.symm h)]
      exact ih

theorem lookup_dsets_ne (d : List (String × Option String)) (k v c : String)
    (hck : c ≠ k) : (dsets d k v).lookup c = d.lookup c := by
  induction d with
  | nil =>
    show List.lookup c [(k, some v)] = List.lookup c []
    rw [lookup_cons_ne _ _ _ _ hck]
  | cons p rest ih =>
    obtain ⟨k0, v0⟩ := p
    by_cases h : k0 = k
    · have hck0 : c ≠ k0 := h ▸ hck
      simp only [dsets, if_pos h]
      rw [lookup_cons_ne _ _ _ _ hck0, lookup_cons_ne _ _ _ _ hck0]
    · simp only [dsets, if_neg h]
      by_cases hc : c = k0
      · subst hc
        rw [lookup_cons_self, lookup_cons_self]
      · rw [lookup_cons_ne _ _ _ _ hc, lookup_cons_ne _ _ _ _ hc]
        exact ih

theorem lookup_eq_none_of_keys {β : Type} (l : List (String × β)) (c : String)
    (h : ∀ p ∈ l, p.1 ≠ c) : l.lookup c = none := by
  induction l with
  | nil => rfl
  | cons p rest ih =>
    obtain ⟨k0, v0⟩ := p
    rw [lookup_cons_ne _ _ _ _ (Ne.symm (h (k0, v0) (by simp)))]
    exact ih fun q hq => h q (by simp [hq])

theorem lookup_append_of_keys {β : Type} (l e : List (String × β)) (c : String)
    (h : ∀ p ∈ e, p.1 ≠ c) : (l ++ e).lookup c = l.lookup c := by
  induction l with
  | nil => simpa using lookup_eq_none_of_keys e c h
  | cons p rest ih =>
    obtain ⟨k0, v0⟩ := p
    by_cases hc : c = k0
    · subst hc
      simp [lookup_cons_self]
    · rw [List.cons_append, lookup_cons_ne _ _ _ _ hc, lookup_cons_ne _ _ _ _ hc]
      exact ih

theorem readFields_keys (cols : List String) :
    ∀ raw : List String, (readFields cols raw).map Prod.fst = cols := by
  induction cols with
  | nil => intro raw; rfl
  | cons c cs ih =>
    intro raw
    cases raw with
    | nil => simpa [readFields] using ih []
    | cons v vs => simpa [readFields] using ih vs

theorem lookup_readFields_map (cols : List String) (f : String → String) :
    ∀ c ∈ cols, cols.Nodup →
      (readFields cols (cols.map f)).lookup c = some (some (f c)) := by
  induction cols with
  | nil => intro c hc; cases hc
  | cons c0 cs ih =>
    intro c hc hnd
    rcases List.mem_cons.mp hc with h | h
    · subst h
      simp [readFields, lookup_cons_self]
    · have hne : c ≠ c0 := fun he =>
        (List.nodup_cons.mp hnd).1 (he ▸ h)
      simp only [List.map_cons, readFields]
      rw [lookup_cons_ne _ _ _ _ hne]
      exact ih c h (List.nodup_cons.mp hnd).2

theorem lookup_readFields_full (cols : List String) :
    ∀ (raw : List String), ∀ c ∈ cols, cols.Nodup → cols.length ≤ raw.length →
      ∃ s, (readFields cols raw).lookup c = some (some s) := by
  induction cols with
  | nil => intro raw c hc; cases hc
  | cons c0 cs ih =>
    intro raw c hc hnd hlen
    cases raw with
    | nil => simp at hlen
    | cons v vs =>
      rcases List.mem_cons.mp hc with h | h
      · subst h
        exact ⟨v, by simp [readFields, lookup_cons_self]⟩
      · have hne : c ≠ c0 := fun he => (List.nodup_cons.mp hnd).1 (he ▸ h)
        simp only [readFields]
        rw [lookup_cons_ne _ _ _ _ hne]
        exact ih vs c h (List.nodup_cons.mp hnd).2 (by simpa using hlen)

theorem writeRow_readFields (cols : List String) :
    ∀ raw : List String, cols.Nodup → cols.length ≤ raw.length →
      writeRow cols (readFields cols raw) = raw.take cols.length := by
  induction cols with
  | nil => intro raw _ _; rfl
  | cons c0 cs ih =>
    intro raw hnd hlen
    cases raw with
    | nil => simp at hlen
    | cons v vs =>
      have htail : ∀ c ∈ cs,
          valD ((readFields (c0 :: cs) (v :: vs)).lookup c)
            = valD ((readFields cs vs).lookup c) := by
        intro c hc
        have hne : c ≠ c0 := fun he => (List.nodup_cons.mp hnd).1 (he ▸ hc)
        simp only [readFields]
        rw [lookup_cons_ne _ _ _ _ hne]
      calc writeRow (c0 :: cs) (readFields (c0 :: cs) (v :: vs))
          = valD ((readFields (c0 :: cs) (v :: vs)).lookup c0) ::
              cs.map (fun c => valD ((readFields (c0 :: cs) (v :: vs)).lookup c)) := rfl
        _ = v :: writeRow cs (readFields cs vs) := by
              rw [List.map_congr_left htail]
              simp [readFields, lookup_cons_self, valD, writeRow]
        _ = v :: vs.take cs.length := by
              rw [ih vs (List.nodup_cons.mp hnd).2 (by simpa using hlen)]
        _ = (v :: vs).take (c0 :: cs).length := by simp

/-! ## List helpers -/

theorem map_set {α β : Type} (l : List α) (i : Nat) (a : α) (f : α → β) :
    (l.set i a).map f = (l.map f).set i (f a) := by
  induction l generalizing i with
  | nil => simp
  | cons x xs ih => cases i <;> simp [ih]

theorem getD_map_of_lt {α β : Type} (l : List α) (f : α → β) (i : Nat)
    (d : β) (d2 : α) (h : i < l.length) :
    (l.map f).getD i d = f (l.getD i d2) := by
  induction l generalizing i with
  | nil => simp at h
  | cons x xs ih =>
    cases i with
    | zero => rfl
    | succ j => exact ih j (by simpa using h)

theorem getD_set_self {α : Type} (l : List α) (i : Nat) (a d : α)
    (h : i < l.length) : (l.set i a).getD i d = a := by
  induction l generalizing i with
  | nil => simp at h
  | cons x xs ih =>
    cases i with
    | zero => rfl
    | succ j => exact ih j (by simpa using h)

theorem getD_set_ne {α : Type} (l : List α) (i j : Nat) (a d : α)
    (h : j ≠ i) : (l.set i a).getD j d = l.getD j d := by
  induction l generalizing i j with
  | nil => simp
  | cons x xs ih =>
    cases i with
    | zero =>
      cases j with
      | zero => exact absurd rfl h
      | succ m => rfl
    | succ n =>
      cases j with
      | zero => rfl
      | succ m => exact ih n m (by omega)

theorem getD_mem_of_lt {α : Type} (l : List α) (i : Nat) (d : α)
    (h : i < l.length) : l.getD i d ∈ l := by
  induction l generalizing i with
  | nil => simp at h
  | cons x xs ih =>
    cases i with
    | zero => simp [List.getD]
    | succ j => exact List.mem_cons_of_mem x (ih j (by simpa using h))

theorem assignRowNumbers_length (start : Nat) :
    ∀ (records : List (List (String × String))) (j : Nat),
      (assignRowNumbers start j records).length = records.length := by
  intro records
  induction records with
  | nil => intro j; rfl
  | cons r rest ih => intro j; simpa [assignRowNumbers] using ih (j + 1)

theorem assignRowNumbers_getD (start : Nat) :
    ∀ (records : List (List (String × String))) (j i : Nat),
      i < records.length →
      (assignRowNumbers start j records).getD i [] =
        rset (records.getD i []) "row_number" (toString (start + (j + i))) := by
  intro records
  induction records with
  | nil => intro j i h; simp at h
  | cons r rest ih =>
    intro j i h
    cases i with
    | zero => simp [assignRowNumbers, List.getD]
    | succ m =>
      have := ih (j + 1) m (by simpa using h)
      simp only [assignRowNumbers, List.getD_cons_succ]
      rw [this, show j + 1 + m = j + (m + 1) by omega]

/-! ## Counting lemmas -/

theorem countStep_eq (today : String) (n : Nat) (r : ReadRow) :
    countStep today n r = n + (if isTodaySent today r then 1 else 0) := by
  unfold countStep isTodaySent
  rcases h : r.fields.lookup "date_sent" with _ | v
  · simp [h]
  · rcases v with _ | s
    · simp [h]
    · by_cases hs : s = ""
      · simp [h, hs]
      · by_cases hw : startswith s today = true <;> simp [h, hs, hw]

theorem foldl_countStep (today : String) :
    ∀ (l : List ReadRow) (n : Nat),
      l.foldl (countStep today) n = n + l.countP (isTodaySent today) := by
  intro l
  induction l with
  | nil => intro n; simp
  | cons r rest ih =>
    intro n
    simp only [List.foldl_cons, List.countP_cons]
    rw [countStep_eq, ih]
    by_cases h : isTodaySent today r
    all_goals simp [h]
    all_goals omega

/-! ## Claims -/

/-- Claim C5, counterexample: on a nonexistent file, `_append_rows` creates
the header line first and therefore returns starting line number 2, not 1. -/
theorem append_rows_new_file_not_one :
    (append_rows ["email"] [[("email", "x")]] none).2 ≠ 1 := by decide

/-- Claim C5, amended: `_append_rows` returns (existing line count) + 1:
2 on a newly created file (whose header occupies line 1), 1 on an existing
zero-line file, and `ls.length + 1` on a file with lines `ls`; hence after
appending K rows to a fresh file the next call returns K + 2. -/
theorem append_rows_start_spec (cols : List String)
    (rows rows2 : List (List (String × String))) (ls : List (List String)) :
    (append_rows cols rows none).2 = 2 ∧
    (append_rows cols rows (some [])).2 = 1 ∧
    (append_rows cols rows (some ls)).2 = ls.length + 1 ∧
    (append_rows cols rows2 ((append_rows cols rows none).1)).2
      = rows.length + 2 := by
  refine ⟨rfl, rfl, rfl, ?_⟩
  simp [append_rows, ensure_csv]

/-- Claim C3: on an existing job file, `update_scraped_job_status` with an
out-of-range data index performs no write (the ensured file is returned
unchanged) and logs a warning instead of raising. -/
theorem update_out_of_range_noop (cols : List String) (ls : List (List String))
    (rn : Int) (es sr er : String)
    (h : ¬ (0 ≤ rn - 2 ∧ rn - 2 < ((readCsvRows ls).length : Int))) :
    update_scraped_job_status cols rn es sr er (some ls)
      = (some ls, LogLevel.warning) := by
  simp only [update_scraped_job_status, ensure_csv]
  rw [if_neg h]

/-- Witness for claim C3 at `row_number = 999` on a header-only file. -/
theorem update_out_of_range_noop_witness :
    (¬ (0 ≤ (999 : Int) - 2 ∧
        (999 : Int) - 2 < ((readCsvRows [["row_number"]]).length : Int))) ∧
    update_scraped_job_status ["row_number"] 999 "Sent" "" "a@b"
        (some [["row_number"]])
      = (some [["row_number"]], LogLevel.warning) :=
  ⟨by decide, update_out_of_range_noop _ _ _ _ _ _ (by decide)⟩

/-- Claim C10: when the job file does not exist,
`update_scraped_job_status` creates it header-only, and for every
`row_number` the update is an out-of-range no-op logged as a warning. -/
theorem update_missing_file_noop (cols : List String) (rn : Int)
    (es sr er : String) :
    update_scraped_job_status cols rn es sr er none
      = (some [cols], LogLevel.warning) := by
  simp only [update_scraped_job_status, ensure_csv, readCsvRows, List.map_nil,
    List.length_nil, Nat.cast_zero]
  rw [if_neg (by omega)]

/-- Claim C8: `_read_csv` parses every line after the header into a row
keyed exactly by the header columns, and yields the empty sequence on a
header-only or nonexistent file. -/
theorem read_csv_spec (cols : List String) (data : List (List String)) :
    read_csv cols (some (cols :: data)) = data.map (dictReadRow cols) ∧
    (∀ r ∈ read_csv cols (some (cols :: data)), r.fields.map Prod.fst = cols) ∧
    read_csv cols (some [cols]) = [] ∧
    read_csv cols none = [] := by
  refine ⟨rfl, ?_, rfl, rfl⟩
  intro r hr
  simp only [read_csv, ensure_csv, readCsvRows] at hr
  rcases List.mem_map.mp hr with ⟨raw, _, hraw⟩
  rw [← hraw]
  exact readFields_keys cols raw

theorem pendingLoop_eq (header : List String) :
    ∀ (data : List (List String)) (n : Nat),
      pendingLoop header n data =
        (List.enumFrom n data).filterMap (fun p =>
          if (readFields header p.2).lookup "email_sent" = some (some "Pending")
          then
            some ⟨dsets (readFields header p.2) "row_number" (toString (p.1 + 2)),
                  p.2.drop header.length⟩
          else none) := by
  intro data
  induction data with
  | nil => intro n; rfl
  | cons raw rest ih =>
    intro n
    by_cases h :
        (readFields header raw).lookup "email_sent" = some (some "Pending")
    · simp [pendingLoop, List.enumFrom, List.filterMap_cons, h, ih (n + 1),
        dictReadRow]
    · simp [pendingLoop, List.enumFrom, List.filterMap_cons, h, ih (n + 1),
        dictReadRow]

/-- Claim C4: `get_pending_jobs` returns exactly the data rows whose
`email_sent` field equals `"Pending"`, in file order, each with its
`row_number` field overwritten to the string of its zero-based index + 2,
regardless of the stored value. -/
theorem get_pending_jobs_spec (cols : List String) (data : List (List String)) :
    get_pending_jobs cols (some (cols :: data)) =
      data.enum.filterMap (fun p =>
        if (readFields cols p.2).lookup "email_sent" = some (some "Pending")
        then
          some ⟨dsets (readFields cols p.2) "row_number" (toString (p.1 + 2)),
                p.2.drop cols.length⟩
        else none) ∧
    (∀ r ∈ get_pending_jobs cols (some (cols :: data)),
      r.fields.lookup "email_sent" = some (some "Pending")) := by
  constructor
  · exact pendingLoop_eq cols data 0
  · intro r hr
    rw [show get_pending_jobs cols (some (cols :: data))
          = pendingLoop cols 0 data from rfl, pendingLoop_eq cols data 0] at hr
    rcases List.mem_filterMap.mp hr with ⟨p, _, hp⟩
    by_cases h :
        (readFields cols p.2).lookup "email_sent" = some (some "Pending")
    · rw [if_pos h] at hp
      cases hp
      rw [lookup_dsets_ne _ _ _ _ (by decide)]
      exact h
    · rw [if_neg h] at hp
      cases hp

/-- Claim C6: `get_today_sent_emails_count` counts exactly the data rows
whose `date_sent` is a non-empty string having today's date string as a
prefix; on the fixed date `2024-01-02` it counts `"2024-01-02"` and
`"2024-01-02T09:00:00"` and excludes `"2024-01-01"` and `""`. -/
theorem today_count_spec (cols : List String) (today : String)
    (data : List (List String)) :
    get_today_sent_emails_count cols today (some (cols :: data)) =
      (data.map (dictReadRow cols)).countP (isTodaySent today) ∧
    get_today_sent_emails_count ["email", "date_sent"] "2024-01-02"
      (some [["email", "date_sent"], ["a", "2024-01-02"],
             ["b", "2024-01-02T09:00:00"], ["c", "2024-01-01"], ["d", ""]])
      = 2 := by
  refine ⟨?_, by decide⟩
  simp only [get_today_sent_emails_count, read_csv, ensure_csv, readCsvRows]
  simpa using foldl_countStep today (data.map (dictReadRow cols)) 0

/-- Claim C7: appending a record and reading it back round-trips: the file
gains exactly the serialized row; keys outside the schema are ignored on
write; and for every schema column the read-back value is the record's
value, with missing keys serialized as the empty string. -/
theorem write_read_roundtrip (cols : List String) (hnd : cols.Nodup)
    (r extra : List (String × String)) (data : List (List String))
    (hx : ∀ p ∈ extra, p.1 ∉ cols) :
    (append_rows cols [r] (some (cols :: data))).1
      = some (cols :: (data ++ [serializeRecord cols r])) ∧
    serializeRecord cols (r ++ extra) = serializeRecord cols r ∧
    (∀ c ∈ cols, (readFields cols (serializeRecord cols r)).lookup c
      = some (some ((r.lookup c).getD ""))) := by
  refine ⟨?_, ?_, ?_⟩
  · simp [append_rows, ensure_csv]
  · unfold serializeRecord
    apply List.map_congr_left
    intro c hc
    rw [lookup_append_of_keys r extra c (fun p hp he => hx p hp (he ▸ hc))]
  · intro c hc
    simpa [serializeRecord] using
      lookup_readFields_map cols (fun c => (r.lookup c).getD "") c hc hnd

/-- Witness for claim C7 on a two-column schema with one extra key. -/
theorem write_read_roundtrip_witness :
    (["email", "date_sent"] : List String).Nodup ∧
    (∀ p ∈ [("junk", "z")], p.1 ∉ (["email", "date_sent"] : List String)) ∧
    ((append_rows ["email", "date_sent"]
        [[("email", "a@b"), ("date_sent", "2024-01-02")]]
        (some [["email", "date_sent"]])).1
      = some (["email", "date_sent"] ::
          ([] ++ [serializeRecord ["email", "date_sent"]
            [("email", "a@b"), ("date_sent", "2024-01-02")]])) ∧
      serializeRecord ["email", "date_sent"]
          ([("email", "a@b"), ("date_sent", "2024-01-02")] ++ [("junk", "z")])
        = serializeRecord ["email", "date_sent"]
            [("email", "a@b"), ("date_sent", "2024-01-02")] ∧
      (∀ c ∈ (["email", "date_sent"] : List String),
        (readFields ["email", "date_sent"]
          (serializeRecord ["email", "date_sent"]
            [("email", "a@b"), ("date_sent", "2024-01-02")])).lookup c
          = some (some ((List.lookup c
              [("email", "a@b"), ("date_sent", "2024-01-02")]).getD "")))) :=
  ⟨by decide, by decide,
    write_read_roundtrip ["email", "date_sent"] (by decide)
      [("email", "a@b"), ("date_sent", "2024-01-02")] [("junk", "z")] []
      (by decide)⟩

/-- Claim C1: for a non-empty batch, `add_scraped_jobs` stamps each input
record's `row_number` with the string of `start + offset` (header counted
as line 1), returns that starting row number, and appends exactly the
stamped records. -/
theorem add_scraped_jobs_assigns_row_numbers (cols : List String)
    (records : List (List (String × String))) (fs : FileState) (start : Nat)
    (hne : records ≠ [])
    (hstart : start = (ensure_csv cols fs).length + 1) :
    (add_scraped_jobs cols records fs).2.2 = start ∧
    (add_scraped_jobs cols records fs).2.1.length = records.length ∧
    (∀ i, i < records.length →
      ((add_scraped_jobs cols records fs).2.1.getD i []).lookup "row_number"
        = some (toString (start + i))) ∧
    (add_scraped_jobs cols records fs).1
      = some (ensure_csv cols fs ++
          (add_scraped_jobs cols records fs).2.1.map (serializeRecord cols)) := by
  subst hstart
  simp only [add_scraped_jobs, if_neg hne, append_rows, ensure_csv]
  refine ⟨by trivial, assignRowNumbers_length _ records 0, ?_, by trivial⟩
  intro i hi
  rw [assignRowNumbers_getD _ records 0 i hi, Nat.zero_add,
    lookup_rset_self]

/-- Witness for claim C1: two records on a nonexistent job file get row
numbers "2" and "3" and the call returns 2. -/
theorem add_scraped_jobs_assigns_row_numbers_witness :
    ([[("email_sent", "Pending")], [("email_sent", "Sent")]] :
        List (List (String × String))) ≠ [] ∧
    2 = (ensure_csv ["row_number", "email_sent"] none).length + 1 ∧
    ((add_scraped_jobs ["row_number", "email_sent"]
        [[("email_sent", "Pending")], [("email_sent", "Sent")]] none).2.2 = 2 ∧
      (add_scraped_jobs ["row_number", "email_sent"]
        [[("email_sent", "Pending")], [("email_sent", "Sent")]] none).2.1.length
        = ([[("email_sent", "Pending")], [("email_sent", "Sent")]] :
            List (List (String × String))).length ∧
      (∀ i, i < ([[("email_sent", "Pending")], [("email_sent", "Sent")]] :
            List (List (String × String))).length →
        ((add_scraped_jobs ["row_number", "email_sent"]
            [[("email_sent", "Pending")], [("email_sent", "Sent")]]
            none).2.1.getD i []).lookup "row_number"
          = some (toString (2 + i))) ∧
      (add_scraped_jobs ["row_number", "email_sent"]
          [[("email_sent", "Pending")], [("email_sent", "Sent")]] none).1
        = some (ensure_csv ["row_number", "email_sent"] none ++
            (add_scraped_jobs ["row_number", "email_sent"]
              [[("email_sent", "Pending")], [("email_sent", "Sent")]]
              none).2.1.map (serializeRecord ["row_number", "email_sent"]))) :=
  ⟨by decide, by decide,
    add_scraped_jobs_assigns_row_numbers ["row_number", "email_sent"]
      [[("email_sent", "Pending")], [("email_sent", "Sent")]] none 2
      (by decide) (by decide)⟩

theorem update_in_range_eq (cols : List String) (data : List (List String))
    (rn : Int) (es sr er : String)
    (h0 : 0 ≤ rn - 2) (h1 : rn - 2 < (data.length : Int)) :
    update_scraped_job_status cols rn es sr er (some (cols :: data)) =
      (some (cols ::
        ((data.map (fun raw => writeRow cols (readFields cols raw))).set
          (rn - 2).toNat
          (writeRow cols (updateStatus
            (dictReadRow cols (data.getD (rn - 2).toNat []))
            es sr er).fields))), LogLevel.debug) := by
  have hi : (rn - 2).toNat < data.length := by omega
  simp only [update_scraped_job_status, ensure_csv, readCsvRows]
  have hc : 0 ≤ rn - 2 ∧
      rn - 2 < (((data.map (dictReadRow cols)).length : Nat) : Int) :=
    ⟨h0, by simpa using h1⟩
  rw [if_pos hc,
    getD_map_of_lt data (dictReadRow cols) (rn - 2).toNat ⟨[], []⟩ [] hi,
    map_set, List.map_map]
  rfl

/-- Claim C2: on a rectangular job file (every data row has exactly the
schema's fields), an in-range `update_scraped_job_status` replaces only the
addressed row, leaving the header, every other row, and the ordering
byte-identical, and in the addressed row it changes exactly the
`email_sent`, `skip_reason` and `email_recipient` fields. -/
theorem update_in_range_frame (cols : List String) (hnd : cols.Nodup)
    (hes : "email_sent" ∈ cols) (hsr : "skip_reason" ∈ cols)
    (her : "email_recipient" ∈ cols)
    (data : List (List String)) (hrect : ∀ r ∈ data, r.length = cols.length)
    (rn : Int) (es sr er : String)
    (h0 : 0 ≤ rn - 2) (h1 : rn - 2 < (data.length : Int)) :
    ∃ newRaw,
      update_scraped_job_status cols rn es sr er (some (cols :: data))
        = (some (cols :: data.set (rn - 2).toNat newRaw), LogLevel.debug) ∧
      (∀ c ∈ cols, c ≠ "email_sent" → c ≠ "skip_reason" →
        c ≠ "email_recipient" →
        (readFields cols newRaw).lookup c
          = (readFields cols (data.getD (rn - 2).toNat [])).lookup c) ∧
      (readFields cols newRaw).lookup "email_sent" = some (some es) ∧
      (readFields cols newRaw).lookup "skip_reason" = some (some sr) ∧
      (readFields cols newRaw).lookup "email_recipient" = some (some er) := by
  have hi : (rn - 2).toNat < data.length := by omega
  have hmap : data.map (fun raw => writeRow cols (readFields cols raw))
      = data := by
    conv_rhs => rw [← List.map_id data]
    apply List.map_congr_left
    intro raw hraw
    have hlen := hrect raw hraw
    rw [writeRow_readFields cols raw hnd (le_of_eq hlen.symm), ← hlen,
      List.take_length]
    rfl
  have hfull := lookup_readFields_full cols (data.getD (rn - 2).toNat [])
  have hmem : data.getD (rn - 2).toNat [] ∈ data := getD_mem_of_lt data _ [] hi
  have hrow := hrect _ hmem
  refine ⟨writeRow cols (updateStatus
      (dictReadRow cols (data.getD (rn - 2).toNat [])) es sr er).fields,
    ?_, ?_, ?_, ?_, ?_⟩
  · rw [update_in_range_eq cols data rn es sr er h0 h1, hmap]
  · intro c hc hc1 hc2 hc3
    rw [show writeRow cols (updateStatus
        (dictReadRow cols (data.getD (rn - 2).toNat [])) es sr er).fields
      = cols.map (fun c => valD ((updateStatus
          (dictReadRow cols (data.getD (rn - 2).toNat []))
          es sr er).fields.lookup c)) from rfl]
    rw [lookup_readFields_map cols _ c hc hnd]
    unfold updateStatus
    rw [lookup_dsets_ne _ _ _ _ hc3, lookup_dsets_ne _ _ _ _ hc2,
      lookup_dsets_ne _ _ _ _ hc1]
    obtain ⟨s, hs⟩ := hfull c hc hnd (le_of_eq hrow.symm)
    rw [show (dictReadRow cols (data.getD (rn - 2).toNat [])).fields
      = readFields cols (data.getD (rn - 2).toNat []) from rfl, hs]
    rfl
  · rw [show writeRow cols (updateStatus
        (dictReadRow cols (data.getD (rn - 2).toNat [])) es sr er).fields
      = cols.map (fun c => valD ((updateStatus
          (dictReadRow cols (data.getD (rn - 2).toNat []))
          es sr er).fields.lookup c)) from rfl]
    rw [lookup_readFields_map cols _ _ hes hnd]
    unfold updateStatus
    rw [lookup_dsets_ne _ _ _ _ (by decide), lookup_dsets_ne _ _ _ _ (by decide),
      lookup_dsets_self]
    rfl
  · rw [show writeRow cols (updateStatus
        (dictReadRow cols (data.getD (rn - 2).toNat [])) es sr er).fields
      = cols.map (fun c => valD ((updateStatus
          (dictReadRow cols (data.getD (rn - 2).toNat []))
          es sr er).fields.lookup c)) from rfl]
    rw [lookup_readFields_map cols _ _ hsr hnd]
    unfold updateStatus
    rw [lookup_dsets_ne _ _ _ _ (by decide), lookup_dsets_self]
    rfl
  · rw [show writeRow cols (updateStatus
        (dictReadRow cols (data.getD (rn - 2).toNat [])) es sr er).fields
      = cols.map (fun c => valD ((updateStatus
          (dictReadRow cols (data.getD (rn - 2).toNat []))
          es sr er).fields.lookup c)) from rfl]
    rw [lookup_readFields_map cols _ _ her hnd]
    unfold updateStatus
    rw [lookup_dsets_self]
    rfl

/-- Witness for claim C2: updating row 2 of a two-row rectangular file. -/
theorem update_in_range_frame_witness :
    (["row_number", "email_sent", "skip_reason", "email_recipient"] :
        List String).Nodup ∧
    "email_sent" ∈ (["row_number", "email_sent", "skip_reason",
        "email_recipient"] : List String) ∧
    "skip_reason" ∈ (["row_number", "email_sent", "skip_reason",
        "email_recipient"] : List String) ∧
    "email_recipient" ∈ (["row_number", "email_sent", "skip_reason",
        "email_recipient"] : List String) ∧
    (∀ r ∈ [["2", "Pending", "", ""], ["3", "Pending", "", ""]],
      r.length = (["row_number", "email_sent", "skip_reason",
        "email_recipient"] : List String).length) ∧
    (0 ≤ (2 : Int) - 2) ∧
    ((2 : Int) - 2 <
      (([["2", "Pending", "", ""], ["3", "Pending", "", ""]] :
        List (List String)).length : Int)) ∧
    (∃ newRaw,
      update_scraped_job_status
          ["row_number", "email_sent", "skip_reason", "email_recipient"]
          2 "Sent" "" "a@b"
          (some (["row_number", "email_sent", "skip_reason", "email_recipient"]
            :: [["2", "Pending", "", ""], ["3", "Pending", "", ""]]))
        = (some (["row_number", "email_sent", "skip_reason", "email_recipient"]
            :: List.set [["2", "Pending", "", ""], ["3", "Pending", "", ""]]
                ((2 : Int) - 2).toNat newRaw), LogLevel.debug) ∧
      (∀ c ∈ (["row_number", "email_sent", "skip_reason", "email_recipient"] :
          List String), c ≠ "email_sent" → c ≠ "skip_reason" →
        c ≠ "email_recipient" →
        (readFields ["row_number", "email_sent", "skip_reason",
            "email_recipient"] newRaw).lookup c
          = (readFields ["row_number", "email_sent", "skip_reason",
              "email_recipient"]
              (List.getD [["2", "Pending", "", ""], ["3", "Pending", "", ""]]
                ((2 : Int) - 2).toNat [])).lookup c) ∧
      (readFields ["row_number", "email_sent", "skip_reason",
          "email_recipient"] newRaw).lookup "email_sent"
        = some (some "Sent") ∧
      (readFields ["row_number", "email_sent", "skip_reason",
          "email_recipient"] newRaw).lookup "skip_reason"
        = some (some "") ∧
      (readFields ["row_number", "email_sent", "skip_reason",
          "email_recipient"] newRaw).lookup "email_recipient"
        = some (some "a@b")) :=
  ⟨by decide, by decide, by decide, by decide, by decide, by decide, by decide,
    update_in_range_frame
      ["row_number", "email_sent", "skip_reason", "email_recipient"]
      (by decide) (by decide) (by decide) (by decide)
      [["2", "Pending", "", ""], ["3", "Pending", "", ""]]
      (by decide) 2 "Sent" "" "a@b" (by decide) (by decide)⟩

/-- Claim C9: an in-range update rewrites every row using only the schema
columns: the new file keeps the row count, every rewritten row has exactly
`cols.length` fields, and every non-addressed row that had excess fields
(the reader's `restkey` overflow) is truncated to its first `cols.length`
fields — the rewrite normalizes all rows even though only the addressed
row's values change. -/
theorem update_rewrite_normalizes (cols : List String) (hnd : cols.Nodup)
    (data : List (List String)) (rn : Int) (es sr er : String)
    (h0 : 0 ≤ rn - 2) (h1 : rn - 2 < (data.length : Int)) :
    ∃ newData,
      (update_scraped_job_status cols rn es sr er (some (cols :: data))).1
        = some (cols :: newData) ∧
      newData.length = data.length ∧
      (∀ j, j < data.length → (newData.getD j []).length = cols.length) ∧
      (∀ j, j < data.length → j ≠ (rn - 2).toNat →
        cols.length ≤ (data.getD j []).length →
        newData.getD j [] = (data.getD j []).take cols.length) := by
  have hi : (rn - 2).toNat < data.length := by omega
  rw [update_in_range_eq cols data rn es sr er h0 h1]
  refine ⟨_, rfl, by simp, ?_, ?_⟩
  · intro j hj
    by_cases hji : j = (rn - 2).toNat
    · subst hji
      rw [getD_set_self _ _ _ _ (by simpa using hi)]
      simp [writeRow]
    · rw [getD_set_ne _ _ _ _ _ hji,
        getD_map_of_lt data _ j [] [] hj]
      simp [writeRow]
  · intro j hj hji hlen
    rw [getD_set_ne _ _ _ _ _ hji,
      getD_map_of_lt data _ j [] [] hj]
    exact writeRow_readFields cols (data.getD j []) hnd hlen

/-- Witness for claim C9: updating row 2 of a file whose second data row
has one excess field. -/
theorem update_rewrite_normalizes_witness :
    (["row_number", "email_sent", "skip_reason", "email_recipient"] :
        List String).Nodup ∧
    (0 ≤ (2 : Int) - 2) ∧
    ((2 : Int) - 2 <
      (([["2", "Pending", "", ""], ["3", "Pending", "", "", "extra"]] :
        List (List String)).length : Int)) ∧
    (∃ newData,
      (update_scraped_job_status
          ["row_number", "email_sent", "skip_reason", "email_recipient"]
          2 "Sent" "" "a@b"
          (some (["row_number", "email_sent", "skip_reason", "email_recipient"]
            :: [["2", "Pending", "", ""],
                ["3", "Pending", "", "", "extra"]]))).1
        = some (["row_number", "email_sent", "skip_reason", "email_recipient"]
            :: newData) ∧
      newData.length = ([["2", "Pending", "", ""],
          ["3", "Pending", "", "", "extra"]] : List (List String)).length ∧
      (∀ j, j < ([["2", "Pending", "", ""],
          ["3", "Pending", "", "", "extra"]] : List (List String)).length →
        (newData.getD j []).length
          = (["row_number", "email_sent", "skip_reason", "email_recipient"] :
              List String).length) ∧
      (∀ j, j < ([["2", "Pending", "", ""],
          ["3", "Pending", "", "", "extra"]] : List (List String)).length →
        j ≠ ((2 : Int) - 2).toNat →
        (["row_number", "email_sent", "skip_reason", "email_recipient"] :
            List String).length
          ≤ (List.getD [["2", "Pending", "", ""],
              ["3", "Pending", "", "", "extra"]] j []).length →
        newData.getD j []
          = (List.getD [["2", "Pending", "", ""],
              ["3", "Pending", "", "", "extra"]] j []).take
              (["row_number", "email_sent", "skip_reason", "email_recipient"] :
                List String).length)) :=
  ⟨by decide, by decide, by decide,
    update_rewrite_normalizes
      ["row_number", "email_sent", "skip_reason", "email_recipient"]
      (by decide)
      [["2", "Pending", "", ""], ["3", "Pending", "", "", "extra"]]
      2 "Sent" "" "a@b" (by decide) (by decide)⟩
